import Mathlib

/-!
# Shallow embedding of `bbPasswordCheckv4.py`

A first-boot password-policy script: it loads a dictionary word set,
evaluates candidate passwords against length, dictionary, pattern and
character-class-diversity rules, and on acceptance tries to apply the
change via the `passwd` utility, guarded by a one-time marker file.

The embedding below transcribes the Python source.  Strings are Lean
`String`s (Python `str.lower` is modelled character-wise with
`Char.toLower`, which agrees with Python on ASCII; every concrete input
used below is ASCII).  A Python `set` that the code iterates over is
modelled as a duplicate-free `List String` recording one iteration
order; file-system reads and the `passwd` subprocess are modelled as
explicit parameters.
-/

/-- Python `str.lower()`, modelled character-wise with `Char.toLower`
(the ASCII case mapping).  Python's full Unicode lowercasing is not
modelled — e.g. U+0130 lowercases to the two-character "i̇" in Python
but is fixed by `Char.toLower` — so no theorem below may rely on how a
non-ASCII character lowercases: statements about the lowercased
password take the lowercased form itself as the subject. -/
def pyLower (s : String) : String := String.mk (s.toList.map Char.toLower)

/-- The six ASCII whitespace characters `str.strip()` removes. -/
def isPySpace (c : Char) : Bool :=
  c == ' ' || c == '\t' || c == '\n' || c == '\r' || c == '\x0B' || c == '\x0C'

/-- Python `str.strip()`: drop surrounding whitespace. -/
def pyStrip (s : String) : String :=
  String.mk (((s.toList.dropWhile isPySpace).reverse.dropWhile isPySpace).reverse)

/-- Contiguous-substring test on character lists: `needle` occurs in
`hay` iff it is a prefix of some suffix of `hay`. -/
def pyInL (needle : List Char) : List Char → Bool
  | [] => needle.isEmpty
  | h :: t => needle.isPrefixOf (h :: t) || pyInL needle t

/-- Python `needle in hay` on strings: contiguous-substring test. -/
def pyIn (needle hay : String) : Bool := pyInL needle.toList hay.toList

/-- Python `s[::-1]`: character reversal. -/
def pyRev (s : String) : String := String.mk s.toList.reverse

/-! ## Module constants (source lines 25–37) -/

/-- `MIN_LENGTH = 12` -/
def MIN_LENGTH : Nat := 12

/-- `MIN_DICT_WORD_LEN = 4` -/
def MIN_DICT_WORD_LEN : Nat := 4

/-- `MAX_LEET_SUBSTITUTION = 2` -/
def MAX_LEET_SUBSTITUTION : Nat := 2

/-- `LEET_MAP`: the fixed leet-substitution table (source lines 34–37). -/
def LEET_MAP : List (Char × Char) :=
  [('0', 'o'), ('1', 'l'), ('3', 'e'), ('4', 'a'), ('5', 's'), ('7', 't'),
   ('@', 'a'), ('$', 's'), ('!', 'i'), ('9', 'g')]

/-- `ch in LEET_MAP` / `LEET_MAP[ch]`: dictionary lookup. -/
def leetLookup (c : Char) : Option Char := LEET_MAP.lookup c

/-! ## Dictionary Loader (`load_word_set`, source lines 41–52)

A source path either raises `FileNotFoundError`/`PermissionError` when
opened (modelled as `none`; the `except` clause `continue`s) or yields a
list of text lines (modelled as `some lines`).  `words` is a Python
`set`; we model it as a duplicate-free list in insertion order. -/

/-- `words.add w`: set insertion (no-op on a duplicate). -/
def setAdd (ws : List String) (w : String) : List String :=
  if w ∈ ws then ws else ws ++ [w]

/-- The loop body for one line: `w = line.strip().lower(); if len(w) >=
MIN_DICT_WORD_LEN: words.add(w)`. -/
def addLine (ws : List String) (line : String) : List String :=
  let w := pyLower (pyStrip line)
  if MIN_DICT_WORD_LEN ≤ w.length then setAdd ws w else ws

/-- The loop body for one source path: an unavailable source (`none`,
i.e. `FileNotFoundError`/`PermissionError`) is skipped by the `except`
clause, an available one is read line by line. -/
def addSource (words : List String) (src : Option (List String)) : List String :=
  match src with
  | none => words
  | some lines => lines.foldl addLine words

/-- `load_word_set(paths)`: accumulate trimmed, lowercased lines of
length at least `MIN_DICT_WORD_LEN` from the available sources. -/
def load_word_set (sources : List (Option (List String))) : List String :=
  sources.foldl addSource []

/-! ## Pattern Detector (`obvious_patterns`, source lines 56–75) -/

/-- The regex search `re.search(r"(.)\1\1\1", pw)`: some position starts
four equal characters; Python `.` does not match a newline. -/
def hasRepeat4 : List Char → Bool
  | a :: b :: c :: d :: rest =>
      (a != '\n' && a == b && a == c && a == d) || hasRepeat4 (b :: c :: d :: rest)
  | _ => false

/-- The `sequences` list of the source (lines 62–67).  The four adjacent
string literals carry no separating commas, so Python's implicit string
literal concatenation makes this a ONE-element list containing their
concatenation. -/
def SEQUENCES : List String :=
  ["abcdefghijklmnopqrstuvwxyz" ++
   "qwertyuiopasdfghjklzxcvbnm" ++
   "1234567890" ++
   "password"]

/-- The inner loop `for i in range(len(seq) - l + 1): ...` — the first
window `seq[i:i+l]` that occurs in `pw` forwards or reversed (the
`break` stops at the first hit).  `len(seq) - l + 1` in Python equals
`seq.length + 1 - l` under truncated `Nat` subtraction (both are the
empty range when `seq` is shorter than `l - 1`). -/
def firstWeakChunk (pwcs : List Char) (seq : List Char) (l : Nat) : Option (List Char) :=
  ((List.range (seq.length + 1 - l)).map (fun i => (seq.drop i).take l)).find?
    (fun chunk => pyInL chunk pwcs || pyInL chunk.reverse pwcs)

/-- `obvious_patterns(password)`: repetition issue, then for each entry
of `sequences` and each window length 4 and 5 at most one weak-sequence
issue. -/
def obvious_patterns (password : String) : List String :=
  let pw := (pyLower password).toList
  (if hasRepeat4 pw then ["Password contains 4+ repeated characters"] else []) ++
  SEQUENCES.flatMap (fun seq =>
    [4, 5].filterMap (fun l =>
      (firstWeakChunk pw seq.toList l).map
        (fun chunk => "Password contains weak sequence '" ++ String.mk chunk ++ "'")))

/-! ## Dictionary Matcher (`contains_dictionary`, source lines 80–104) -/

/-- Stage 1 (verbatim): first word of length ≥ `MIN_DICT_WORD_LEN` that
is a substring of the lowercased password (shorter words are skipped by
the `continue`). -/
def findVerbatim (lower : String) (ws : List String) : Option String :=
  ws.find? (fun w => decide (MIN_DICT_WORD_LEN ≤ w.length) && pyIn w lower)

/-- Stage 2 (reversed): first word that is a substring of the reversed
password; note: no length filter in this loop. -/
def findReversed (lower : String) (ws : List String) : Option String :=
  ws.find? (fun w => pyIn w (pyRev lower))

/-- One iteration of the leet loop's `if ch in LEET_MAP ... else ...`:
the appended character and the updated `leet_changes` counter. -/
def leetStep (ch : Char) (cnt : Nat) : Char × Nat :=
  match leetLookup ch with
  | some m => (m, cnt + 1)
  | none => (ch, cnt)

/-- Stage 3 (leet-normalized), transcribing the `for ch in lower` loop:
`acc` is `normalized_characters` so far and `cnt` is `leet_changes`.
After appending each (possibly substituted) character, when the count so
far is at most `MAX_LEET_SUBSTITUTION` the word set is scanned over the
normalized prefix and the first hit returned. -/
def leetStage (ws : List String) : List Char → List Char → Nat → Option String
  | [], _, _ => none
  | ch :: rest, acc, cnt =>
      if (leetStep ch cnt).2 ≤ MAX_LEET_SUBSTITUTION then
        match ws.find? (fun w => pyInL w.toList (acc ++ [(leetStep ch cnt).1])) with
        | some w => some w
        | none => leetStage ws rest (acc ++ [(leetStep ch cnt).1]) (leetStep ch cnt).2
      else leetStage ws rest (acc ++ [(leetStep ch cnt).1]) (leetStep ch cnt).2

/-- `contains_dictionary(pw, wordset)`: the three stages in order,
short-circuiting on the first hit. -/
def contains_dictionary (pw : String) (ws : List String) : Bool × String :=
  let lower := pyLower pw
  match findVerbatim lower ws with
  | some w => (true, "contains dictionary word '" ++ w ++ "'")
  | none =>
    match findReversed lower ws with
    | some w => (true, "contains reversed dictionary word '" ++ w ++ "'")
    | none =>
      match leetStage ws lower.toList [] 0 with
      | some w => (true, "contains dictionary word '" ++ w ++ "'")
      | none => (false, "")

/-! ## Strength Evaluator (`check_password_strength`, source lines 108–124) -/

/-- `bool(re.search("[a-z]", pw))` etc.: the four character classes of
the diversity rule (regex ranges are ASCII code-point ranges). -/
def categories (pw : String) : Nat :=
  (if pw.toList.any (fun c => 'a' ≤ c && c ≤ 'z') then 1 else 0) +
  (if pw.toList.any (fun c => 'A' ≤ c && c ≤ 'Z') then 1 else 0) +
  (if pw.toList.any (fun c => '0' ≤ c && c ≤ '9') then 1 else 0) +
  (if pw.toList.any (fun c =>
      !(('a' ≤ c && c ≤ 'z') || ('A' ≤ c && c ≤ 'Z') || ('0' ≤ c && c ≤ '9')))
   then 1 else 0)

/-- The f-string `f"Password too short (min {MIN_LENGTH})"`. -/
def tooShortMsg : String := "Password too short (min " ++ toString MIN_LENGTH ++ ")"

/-- `check_password_strength(pw, wordset)`: length rule, dictionary
rule, pattern rules, diversity rule, appended in that order. -/
def check_password_strength (pw : String) (ws : List String) : List String :=
  (if pw.length < MIN_LENGTH then [tooShortMsg] else []) ++
  ((fun r => if r.1 then [r.2] else []) (contains_dictionary pw ws)) ++
  obvious_patterns pw ++
  (if categories pw < 3 && pw.length < 20 then ["Too many similar characters"] else [])

/-! ## Credential Applier (`set_system_password`, source lines 129–145)

The `try` block builds `bbpassword + "\n" + password + "\n" + password
+ "\n"` as the stdin payload.  The name `bbpassword` is resolved against
the function's enclosing scopes; the module defines no such variable, so
evaluation raises `NameError`, which the blanket `except Exception`
turns into a printed diagnostic and `False`.  We model name resolution
with an association list of the string-valued bindings in scope (empty:
no `bbpassword` is bound anywhere in the file), and the external
`passwd` process as an oracle from stdin payload to exit code. -/

/-- String-valued names visible inside `set_system_password`: the module
body binds no variable `bbpassword` (nor any other string variable the
payload expression could read). -/
def stringGlobals : List (String × String) := []

/-- `set_system_password(password)` →
`(returned value, printed diagnostics)`. -/
def set_system_password (passwdExit : String → Int) (password : String) :
    Bool × List String :=
  match stringGlobals.lookup "bbpassword" with
  | some bbpassword =>
      let payload := bbpassword ++ "\n" ++ password ++ "\n" ++ password ++ "\n"
      if passwdExit payload = 0 then (true, []) else (false, ["passwd stderr"])
  | none =>
      (false, ["Error running passwd: name 'bbpassword' is not defined"])

/-! ## Session Controller (`main`, source lines 147–182)

Interactive effects are reified as a trace of events.  The attempts
list supplies the successive `(pw1, pw2)` pairs typed at the two
`getpass` prompts; an exhausted list means the process is blocked
waiting for input.  `Ev.wroteMarker` is the event the one-time-marker
contract expects after a successful update; transcribing `main`, no
statement of the source emits it (the marker is only read, line 149). -/

inductive Ev where
  | printed (s : String)
  | wroteMarker
  | exited (code : Nat)
  | blockedOnInput
  deriving DecidableEq, Repr

/-- The `while True` loop body (source lines 159–182). -/
def mainLoop (passwdExit : String → Int) (ws : List String) :
    List (String × String) → List Ev
  | [] => [Ev.blockedOnInput]
  | (pw1, pw2) :: rest =>
      if pw1 ≠ pw2 then
        Ev.printed "Passwords do not match. Try again.\n" :: mainLoop passwdExit ws rest
      else
        let reasons := check_password_strength pw1 ws
        if reasons ≠ [] then
          (Ev.printed "Password too weak:" ::
            reasons.map (fun r => Ev.printed ("- " ++ r))) ++
          (Ev.printed "\nPlease try again.\n" :: mainLoop passwdExit ws rest)
        else
          Ev.printed "Password accepted. Updating bbuser password...\n" ::
          (let res := set_system_password passwdExit pw1
           res.2.map Ev.printed ++
           if res.1 then
             [Ev.printed "Password has been updated.", Ev.exited 0]
           else
             Ev.printed "Failed to update password. Try again.\n" ::
               mainLoop passwdExit ws rest)

/-- `main()`: marker guard, banner, dictionary load, prompt loop. -/
def main_trace (passwdExit : String → Int) (markerExists : Bool)
    (dictSources : List (Option (List String)))
    (attempts : List (String × String)) : List Ev :=
  if markerExists then
    [Ev.printed "Password already changed, exiting."]
  else
    Ev.printed "Password change required for bbuser. Ensure that you will remember this password." ::
    Ev.printed "First input your current password once, then you will be prompted to input the new password twice" ::
    Ev.printed "The minimum character length is 12. Please do not use any dictionary words or chains of repeated characters." ::
    mainLoop passwdExit (load_word_set dictSources) attempts

/-! ## Spec-side definitions

These follow the specification's words (not the source) and exist only
to be compared against the transcribed code above. -/

/-- Modelled from the spec: the weak-sequence catalog as FOUR separate
reference strings — "a fixed catalog of reference strings (lowercase
alphabet, a standard keyboard-row ordering, the digit sequence 0–9, and
the literal token password)". -/
def SEQUENCES_spec : List String :=
  ["abcdefghijklmnopqrstuvwxyz",
   "qwertyuiopasdfghjklzxcvbnm",
   "1234567890",
   "password"]

/-- Modelled from the spec: the weak-sequence scan run per reference
string of the four-element catalog (the repetition rule is unchanged). -/
def obviousPatternsSpec (password : String) : List String :=
  let pw := (pyLower password).toList
  (if hasRepeat4 pw then ["Password contains 4+ repeated characters"] else []) ++
  SEQUENCES_spec.flatMap (fun seq =>
    [4, 5].filterMap (fun l =>
      (firstWeakChunk pw seq.toList l).map
        (fun chunk => "Password contains weak sequence '" ++ String.mk chunk ++ "'")))

/-- A run of 4 or more identical consecutive characters, for any
repeated character (the repetition rule as the spec states it). -/
def hasRun4 (cs : List Char) : Prop :=
  ∃ pre c suf, cs = pre ++ [c, c, c, c] ++ suf

/-- The leet normalization of a full character list: every character in
the `LEET_MAP` replaced by its mapped letter, others passed through. -/
def leetNorm (cs : List Char) : List Char :=
  cs.map (fun c => (leetLookup c).getD c)

/-- How many characters of `cs` the leet normalization substitutes. -/
def leetCount (cs : List Char) : Nat :=
  (cs.filter (fun c => (leetLookup c).isSome)).length

/-- The per-prefix check of the spec's leet stage: if the cumulative
substitution count of the prefix is at most the maximum, look for the
first dictionary word occurring in the normalized prefix. -/
def specCheck (ws : List String) (q : List Char) : Option String :=
  if leetCount q ≤ MAX_LEET_SUBSTITUTION then
    ws.find? (fun w => pyInL w.toList (leetNorm q))
  else none

/-- The leet-normalized stage as the spec words it: walk the password
character by character; after each character run the budgeted
dictionary check on the normalized prefix processed so far, reporting
the first hit. -/
def leetStageSpec (ws : List String) (cs : List Char) : Option String :=
  (List.range cs.length).findSome? (fun i => specCheck ws (cs.take (i + 1)))

/-! ## Helper lemmas -/

/-- Two strings with different first characters differ. -/
theorem ne_of_data_head {s t : String} (h : s.data.head? ≠ t.data.head?) : s ≠ t :=
  fun e => h (congrArg (fun u => u.data.head?) e)

/-- Prepending a character preserves a repeat hit. -/
theorem hasRepeat4_cons_of (x : Char) : ∀ {l : List Char}, hasRepeat4 l = true →
    hasRepeat4 (x :: l) = true
  | a :: b :: c :: d :: t, h => by
      have : hasRepeat4 (x :: a :: b :: c :: d :: t) =
          ((x != '\n' && x == a && x == b && x == c) || hasRepeat4 (a :: b :: c :: d :: t)) :=
        rfl
      rw [this, h, Bool.or_true]

/-- A four-character run of a non-newline character anywhere in the list
makes `hasRepeat4` fire. -/
theorem hasRepeat4_of_run : ∀ (pre : List Char) (c : Char) (suf : List Char), c ≠ '\n' →
    hasRepeat4 (pre ++ [c, c, c, c] ++ suf) = true
  | [], c, suf, hc => by
      have : hasRepeat4 ([] ++ [c, c, c, c] ++ suf) =
          ((c != '\n' && c == c && c == c && c == c) || hasRepeat4 (c :: c :: c :: suf)) := rfl
      rw [this]
      simp [bne_iff_ne, hc]
  | x :: pre, c, suf, hc =>
      hasRepeat4_cons_of x (hasRepeat4_of_run pre c suf hc)

/-- C1: the source's `sequences` list (lines 62–67) was meant to hold
four reference strings, but the missing commas make Python concatenate
the adjacent literals into a single 70-character reference string.
Consequently a password containing weak chunks of two distinct intended
reference strings at the same window length receives only one issue
(scanning the single merged string stops at its first hit), where the
claim requires one issue per reference string: on "abcdqwer" the code
reports only the alphabet chunk 'abcd', while the four-string catalog
of the spec reports both 'abcd' and 'qwer'. -/
theorem pattern_catalog_is_single_concatenated_sequence :
    SEQUENCES.length = 1 ∧
    SEQUENCES_spec.length = 4 ∧
    obvious_patterns "abcdqwer" = ["Password contains weak sequence 'abcd'"] ∧
    obviousPatternsSpec "abcdqwer" =
      ["Password contains weak sequence 'abcd'",
       "Password contains weak sequence 'qwer'"] :=
  ⟨rfl, rfl, by decide, by decide⟩

/-- C5 counterexample: the repetition regex `(.)\1\1\1` is claimed to
fire "regardless of which character repeats", but Python's `.` does not
match a newline: a password of 12 newlines has a run of 12 identical
characters and meets the minimum length, yet `obvious_patterns` reports
nothing and the evaluator rejects it only for class diversity, not for
repetition. -/
theorem repeat_rule_newline_counterexample :
    hasRun4 ("\n\n\n\n\n\n\n\n\n\n\n\n".toList) ∧
    "\n\n\n\n\n\n\n\n\n\n\n\n".length = 12 ∧
    obvious_patterns "\n\n\n\n\n\n\n\n\n\n\n\n" = [] ∧
    check_password_strength "\n\n\n\n\n\n\n\n\n\n\n\n" [] = ["Too many similar characters"] :=
  ⟨⟨[], '\n', List.replicate 8 '\n', by decide⟩, by decide, by decide, by decide⟩

/-- C5 (amended): the regex runs on the lowercased password, so the
run must be measured there — Python lowercasing can change character
counts (U+0130 lowercases to the two-character "i̇", destroying a
run of the original).  For every password whose LOWERCASED form
contains a run of 4 or more identical consecutive characters of any
non-newline character (Python's `.` in the repetition regex does not
match `\n`), the Pattern Detector reports "contains 4+ repeated
characters", and the Strength Evaluator includes that reason for any
WordSet; in particular "aaaaaaaaaaaa" is rejected with this reason. -/
theorem repeat_rule_nonnewline (pw : String) (ws : List String) (c : Char)
    (pre suf : List Char) (hc : c ≠ '\n')
    (hpw : (pyLower pw).toList = pre ++ [c, c, c, c] ++ suf) :
    "Password contains 4+ repeated characters" ∈ obvious_patterns pw ∧
    "Password contains 4+ repeated characters" ∈ check_password_strength pw ws := by
  have hrep : hasRepeat4 (pyLower pw).toList = true := by
    rw [hpw]
    exact hasRepeat4_of_run _ _ _ hc
  have hmem : "Password contains 4+ repeated characters" ∈ obvious_patterns pw := by
    unfold obvious_patterns
    dsimp only
    rw [hrep]
    simp
  refine ⟨hmem, ?_⟩
  simp only [check_password_strength, List.mem_append]
  exact Or.inl (Or.inr hmem)

/-- C5 witness: the amended repetition theorem applied to the spec's
concrete example "aaaaaaaaaaaa" (already lowercase). -/
theorem repeat_rule_nonnewline_witness :
    "Password contains 4+ repeated characters" ∈ obvious_patterns "aaaaaaaaaaaa" ∧
    "Password contains 4+ repeated characters" ∈ check_password_strength "aaaaaaaaaaaa" [] :=
  repeat_rule_nonnewline "aaaaaaaaaaaa" [] 'a' [] (List.replicate 8 'a')
    (by decide) (by decide)

/-! ## Loader lemmas -/

theorem setAdd_nodup {ws : List String} {w : String} (h : ws.Nodup) :
    (setAdd ws w).Nodup := by
  unfold setAdd
  split
  · exact h
  · next hmem =>
      rw [List.nodup_append]
      refine ⟨h, List.nodup_singleton w, ?_⟩
      intro a ha hb
      rw [List.mem_singleton] at hb
      exact hmem (hb ▸ ha)

theorem mem_setAdd {ws : List String} {w v : String} (h : v ∈ setAdd ws w) :
    v ∈ ws ∨ v = w := by
  unfold setAdd at h
  split at h
  · exact Or.inl h
  · rcases List.mem_append.mp h with h' | h'
    · exact Or.inl h'
    · exact Or.inr (List.mem_singleton.mp h')

theorem addLine_nodup {ws : List String} {line : String} (h : ws.Nodup) :
    (addLine ws line).Nodup := by
  unfold addLine
  dsimp only
  split
  · exact setAdd_nodup h
  · exact h

theorem mem_addLine {ws : List String} {line v : String} (h : v ∈ addLine ws line) :
    v ∈ ws ∨ (v = pyLower (pyStrip line) ∧ MIN_DICT_WORD_LEN ≤ v.length) := by
  unfold addLine at h
  dsimp only at h
  split at h
  · next hlen =>
      rcases mem_setAdd h with h' | h'
      · exact Or.inl h'
      · exact Or.inr ⟨h', by rw [h']; exact hlen⟩
  · exact Or.inl h

theorem foldl_addLine_nodup :
    ∀ (lines acc : List String), acc.Nodup → (lines.foldl addLine acc).Nodup
  | [], _, h => h
  | _ :: ls, _, h => foldl_addLine_nodup ls _ (addLine_nodup h)

theorem mem_foldl_addLine :
    ∀ (lines acc : List String) (v : String), v ∈ lines.foldl addLine acc →
      v ∈ acc ∨ ∃ line ∈ lines, v = pyLower (pyStrip line) ∧ MIN_DICT_WORD_LEN ≤ v.length
  | [], _, _, h => Or.inl h
  | l :: ls, acc, v, h => by
      rcases mem_foldl_addLine ls (addLine acc l) v h with h' | ⟨line, hl, he⟩
      · rcases mem_addLine h' with h'' | h''
        · exact Or.inl h''
        · exact Or.inr ⟨l, List.mem_cons_self l ls, h''⟩
      · exact Or.inr ⟨line, List.mem_cons_of_mem l hl, he⟩

theorem addSource_nodup {acc : List String} {src : Option (List String)}
    (h : acc.Nodup) : (addSource acc src).Nodup := by
  cases src with
  | none => exact h
  | some lines => exact foldl_addLine_nodup lines acc h

theorem mem_addSource {acc : List String} {src : Option (List String)} {v : String}
    (h : v ∈ addSource acc src) :
    v ∈ acc ∨ ∃ lines, src = some lines ∧
      ∃ line ∈ lines, v = pyLower (pyStrip line) ∧ MIN_DICT_WORD_LEN ≤ v.length := by
  cases src with
  | none => exact Or.inl h
  | some lines =>
      rcases mem_foldl_addLine lines acc v h with h' | he
      · exact Or.inl h'
      · exact Or.inr ⟨lines, rfl, he⟩

theorem foldl_addSource_nodup :
    ∀ (srcs : List (Option (List String))) (acc : List String),
      acc.Nodup → (srcs.foldl addSource acc).Nodup
  | [], _, h => h
  | _ :: ss, _, h => foldl_addSource_nodup ss _ (addSource_nodup h)

theorem mem_foldl_addSource :
    ∀ (srcs : List (Option (List String))) (acc : List String) (v : String),
      v ∈ srcs.foldl addSource acc →
      v ∈ acc ∨ ∃ lines, some lines ∈ srcs ∧
        ∃ line ∈ lines, v = pyLower (pyStrip line) ∧ MIN_DICT_WORD_LEN ≤ v.length
  | [], _, _, h => Or.inl h
  | s :: ss, acc, v, h => by
      rcases mem_foldl_addSource ss _ v h with h' | ⟨lines, hs, he⟩
      · rcases mem_addSource h' with h'' | ⟨lines, hseq, he⟩
        · exact Or.inl h''
        · exact Or.inr ⟨lines, by rw [← hseq]; exact List.mem_cons_self s ss, he⟩
      · exact Or.inr ⟨lines, List.mem_cons_of_mem s hs, he⟩

/-- C9: the Dictionary Loader never raises for a missing or
permission-denied source: such a source (modelled `none`, for the caught
`FileNotFoundError`/`PermissionError`) is skipped silently, leaving the
result exactly the load of the remaining sources; and for every source
sequence the result is a deduplicated set each of whose elements is the
whitespace-trimmed, lowercased form of a line of some available source
and has length at least the minimum dictionary-word length (shorter
lines are discarded). -/
theorem loader_skips_missing_and_normalizes :
    (∀ (pre post : List (Option (List String))),
        load_word_set (pre ++ none :: post) = load_word_set (pre ++ post)) ∧
    (∀ srcs, (load_word_set srcs).Nodup) ∧
    (∀ srcs w, w ∈ load_word_set srcs →
        MIN_DICT_WORD_LEN ≤ w.length ∧
        ∃ lines, some lines ∈ srcs ∧ ∃ line ∈ lines, w = pyLower (pyStrip line)) := by
  refine ⟨?_, ?_, ?_⟩
  · intro pre post
    unfold load_word_set
    rw [List.foldl_append, List.foldl_append, List.foldl_cons]
    rfl
  · intro srcs
    exact foldl_addSource_nodup srcs [] List.nodup_nil
  · intro srcs w h
    rcases mem_foldl_addSource srcs [] w h with h' | ⟨lines, hs, line, hl, he, hlen⟩
    · simp at h'
    · exact ⟨hlen, lines, hs, line, hl, he⟩

/-- C9 witness: the loader theorem applied to a concrete source list
holding one readable two-line file and one missing file. -/
theorem loader_skips_missing_and_normalizes_witness :
    MIN_DICT_WORD_LEN ≤ "hello".length ∧
    ∃ lines, some lines ∈ [some ["  Hello  ", "ab"], none] ∧
      ∃ line ∈ lines, "hello" = pyLower (pyStrip line) :=
  loader_skips_missing_and_normalizes.2.2 [some ["  Hello  ", "ab"], none] "hello"
    (by decide)

/-! ## Session Controller lemmas -/

/-- Rejection reasons are echoed with a dash prefix; that echo is never
the success message. -/
theorem dash_ne (r : String) : "- " ++ r ≠ "Password has been updated." :=
  ne_of_data_head (by
    rw [String.data_append]
    exact (by decide : some '-' ≠ some 'P'))

/-- `set_system_password` reduces: `bbpassword` is unbound, the
`NameError` is caught, a diagnostic is printed and `False` returned. -/
theorem set_system_password_eq (passwdExit : String → Int) (password : String) :
    set_system_password passwdExit password =
      (false, ["Error running passwd: name 'bbpassword' is not defined"]) := rfl

/-- Every event the prompt loop emits is a printed line other than the
success message, or the blocked-on-input sentinel. -/
theorem mainLoop_events (passwdExit : String → Int) (ws : List String) :
    ∀ (attempts : List (String × String)) (ev : Ev), ev ∈ mainLoop passwdExit ws attempts →
      (∃ s, ev = Ev.printed s ∧ s ≠ "Password has been updated.") ∨ ev = Ev.blockedOnInput
  | [], ev, h => by
      unfold mainLoop at h
      rw [List.mem_singleton] at h
      exact Or.inr h
  | (pw1, pw2) :: rest, ev, h => by
      unfold mainLoop at h
      split at h
      · rcases List.mem_cons.mp h with he | h'
        · exact Or.inl ⟨_, he, by decide⟩
        · exact mainLoop_events passwdExit ws rest ev h'
      · dsimp only at h
        split at h
        · rcases List.mem_append.mp h with h' | h'
          · rcases List.mem_cons.mp h' with he | h''
            · exact Or.inl ⟨_, he, by decide⟩
            · rcases List.mem_map.mp h'' with ⟨r, _, he⟩
              exact Or.inl ⟨_, he.symm, dash_ne r⟩
          · rcases List.mem_cons.mp h' with he | h''
            · exact Or.inl ⟨_, he, by decide⟩
            · exact mainLoop_events passwdExit ws rest ev h''
        · rcases List.mem_cons.mp h with he | h'
          · exact Or.inl ⟨_, he, by decide⟩
          · rw [set_system_password_eq] at h'
            rcases List.mem_append.mp h' with h'' | h''
            · rcases List.mem_map.mp h'' with ⟨r, hr, he⟩
              rw [List.mem_singleton] at hr
              subst hr
              exact Or.inl ⟨_, he.symm, by decide⟩
            · rcases List.mem_cons.mp h'' with he | h'''
              · exact Or.inl ⟨_, he, by decide⟩
              · exact mainLoop_events passwdExit ws rest ev h'''

/-- Every event the whole process emits is a printed line other than
the success message, or the blocked-on-input sentinel. -/
theorem main_trace_events (passwdExit : String → Int) (markerExists : Bool)
    (dictSources : List (Option (List String))) (attempts : List (String × String))
    (ev : Ev) (h : ev ∈ main_trace passwdExit markerExists dictSources attempts) :
    (∃ s, ev = Ev.printed s ∧ s ≠ "Password has been updated.") ∨ ev = Ev.blockedOnInput := by
  unfold main_trace at h
  split at h
  · rw [List.mem_singleton] at h
    exact Or.inl ⟨_, h, by decide⟩
  · rcases List.mem_cons.mp h with he | h'
    · exact Or.inl ⟨_, he, by decide⟩
    rcases List.mem_cons.mp h' with he | h''
    · exact Or.inl ⟨_, he, by decide⟩
    rcases List.mem_cons.mp h'' with he | h'''
    · exact Or.inl ⟨_, he, by decide⟩
    exact mainLoop_events passwdExit _ attempts ev h'''

/-- C3: the one-time marker is claimed to be written exactly once after
a confirmed successful credential update, but `main` contains no marker
write at all: `MARKER` is only read at startup (line 149), and in the
reified event trace no execution — for any passwd oracle, marker state,
dictionary contents and input sequence — ever emits the marker-write
event. -/
theorem marker_never_written (passwdExit : String → Int) (markerExists : Bool)
    (dictSources : List (Option (List String))) (attempts : List (String × String)) :
    (main_trace passwdExit markerExists dictSources attempts).count Ev.wroteMarker = 0 := by
  rw [List.count_eq_zero]
  intro h
  rcases main_trace_events passwdExit markerExists dictSources attempts _ h with ⟨s, he, _⟩ | he
  · exact Ev.noConfusion he
  · exact Ev.noConfusion he

/-- C4: `set_system_password` returns `False` for every password — the
stdin payload references the undefined name `bbpassword`, the raised
`NameError` is caught by the blanket handler which prints a diagnostic
and returns `False` — and consequently the success branch of `main` is
unreachable: no trace contains the exit-code-0 event or the success
message. -/
theorem set_system_password_always_false (passwdExit : String → Int)
    (markerExists : Bool) (dictSources : List (Option (List String)))
    (attempts : List (String × String)) (password : String) :
    set_system_password passwdExit password =
      (false, ["Error running passwd: name 'bbpassword' is not defined"]) ∧
    (main_trace passwdExit markerExists dictSources attempts).count (Ev.exited 0) = 0 ∧
    (main_trace passwdExit markerExists dictSources attempts).count
      (Ev.printed "Password has been updated.") = 0 := by
  refine ⟨rfl, ?_, ?_⟩
  · rw [List.count_eq_zero]
    intro h
    rcases main_trace_events passwdExit markerExists dictSources attempts _ h with
      ⟨s, he, _⟩ | he
    · exact Ev.noConfusion he
    · exact Ev.noConfusion he
  · rw [List.count_eq_zero]
    intro h
    rcases main_trace_events passwdExit markerExists dictSources attempts _ h with
      ⟨s, he, hs⟩ | he
    · exact hs (Ev.printed.inj he).symm
    · exact Ev.noConfusion he

/-! ## Dictionary Matcher lemmas -/

theorem leetNorm_append (l1 l2 : List Char) :
    leetNorm (l1 ++ l2) = leetNorm l1 ++ leetNorm l2 := by
  simp [leetNorm]

theorem leetCount_append (l1 l2 : List Char) :
    leetCount (l1 ++ l2) = leetCount l1 + leetCount l2 := by
  simp [leetCount, List.filter_append]

theorem leetStep_fst (ch : Char) (cnt : Nat) :
    (leetStep ch cnt).1 = (leetLookup ch).getD ch := by
  unfold leetStep
  cases leetLookup ch <;> rfl

theorem leetStep_snd (ch : Char) (cnt : Nat) :
    (leetStep ch cnt).2 = cnt + leetCount [ch] := by
  unfold leetStep
  cases h : leetLookup ch <;> simp [h, leetCount, List.filter_cons]

theorem leetNorm_singleton (ch : Char) :
    leetNorm [ch] = [(leetLookup ch).getD ch] := rfl

/-- Once `leet_changes` exceeds the budget it never decreases, so the
rest of the loop performs no dictionary check and returns nothing. -/
theorem leetStage_none_of_gt (ws : List String) :
    ∀ (rest acc : List Char) (cnt : Nat), MAX_LEET_SUBSTITUTION < cnt →
      leetStage ws rest acc cnt = none
  | [], _, _, _ => rfl
  | ch :: rest, acc, cnt, h => by
      unfold leetStage
      rw [if_neg (by rw [leetStep_snd]; omega)]
      exact leetStage_none_of_gt ws rest _ _ (by rw [leetStep_snd]; omega)

/-- The code's accumulator loop computes exactly the spec's fold: with
the normalized prefix and substitution count of `pre` as loop state,
scanning `rest` returns the first budgeted per-prefix hit. -/
theorem leetStage_eq_spec (ws : List String) :
    ∀ (rest pre : List Char),
      leetStage ws rest (leetNorm pre) (leetCount pre) =
      (List.range rest.length).findSome? (fun i => specCheck ws (pre ++ rest.take (i + 1)))
  | [], _ => rfl
  | ch :: rest, pre => by
      have hsnd : (leetStep ch (leetCount pre)).2 = leetCount (pre ++ [ch]) := by
        rw [leetStep_snd, leetCount_append]
      have hnorm :
          leetNorm pre ++ [(leetStep ch (leetCount pre)).1] = leetNorm (pre ++ [ch]) := by
        rw [leetStep_fst, leetNorm_append, leetNorm_singleton]
      have hshift :
          (fun i => specCheck ws (pre ++ (ch :: rest).take (i + 1))) ∘ Nat.succ =
            fun i => specCheck ws ((pre ++ [ch]) ++ rest.take (i + 1)) := by
        funext i
        show specCheck ws (pre ++ (ch :: rest).take (i + 1 + 1)) = _
        rw [List.take_succ_cons, List.append_cons]
      have hf0 : pre ++ List.take (0 + 1) (ch :: rest) = pre ++ [ch] := rfl
      simp only [leetStage]
      rw [hsnd, hnorm, List.length_cons, List.range_succ_eq_map, List.findSome?_cons,
        hf0, List.findSome?_map, hshift]
      by_cases hle : leetCount (pre ++ [ch]) ≤ MAX_LEET_SUBSTITUTION
      · rw [if_pos hle,
          show specCheck ws (pre ++ [ch]) =
              ws.find? (fun w => pyInL w.toList (leetNorm (pre ++ [ch]))) from by
            unfold specCheck
            rw [if_pos hle]]
        cases hfind : ws.find? (fun w => pyInL w.toList (leetNorm (pre ++ [ch]))) with
        | some w => rfl
        | none => exact leetStage_eq_spec ws rest (pre ++ [ch])
      · rw [if_neg hle,
          show specCheck ws (pre ++ [ch]) = none from by
            unfold specCheck
            rw [if_neg hle],
          leetStage_none_of_gt ws rest _ _ (by omega)]
        symm
        rw [List.findSome?_eq_none_iff]
        intro i _
        unfold specCheck
        rw [if_neg (by rw [leetCount_append]; omega)]

/-- C2: whenever the verbatim and reversed stages find no hit, the
Dictionary Matcher's result is exactly the spec's incremental
leet-normalization fold — the password is walked character by
character, mapped characters are substituted and counted, after each
character the prefix is checked while the cumulative count is at most
the budget of 2, and the first hit is reported; moreover the spec's
example "dr4g0n123456" against a WordSet holding "dragon" is reported
by this stage at exactly the budget (two substitutions). -/
theorem leet_stage_incremental_budget :
    (∀ pw ws, findVerbatim (pyLower pw) ws = none → findReversed (pyLower pw) ws = none →
        contains_dictionary pw ws =
          match leetStageSpec ws (pyLower pw).toList with
          | some w => (true, "contains dictionary word '" ++ w ++ "'")
          | none => (false, "")) ∧
    leetCount ("dr4g0n".toList) = 2 ∧
    leetStageSpec ["dragon"] (pyLower "dr4g0n123456").toList = some "dragon" ∧
    contains_dictionary "dr4g0n123456" ["dragon"] =
      (true, "contains dictionary word 'dragon'") := by
  refine ⟨?_, by decide, by decide, by decide⟩
  intro pw ws h1 h2
  unfold contains_dictionary
  simp only [h1, h2]
  have hmain := leetStage_eq_spec ws ((pyLower pw).toList) []
  simp only [List.nil_append] at hmain
  have h3 : leetStageSpec ws (pyLower pw).toList = leetStage ws (pyLower pw).toList [] 0 := by
    unfold leetStageSpec
    rw [← hmain]
    rfl
  rw [h3]


/-- C2 witness: the leet-stage theorem applied to the dragon example,
whose verbatim and reversed stages find nothing. -/
theorem leet_stage_incremental_budget_witness :
    contains_dictionary "dr4g0n123456" ["dragon"] =
      match leetStageSpec ["dragon"] (pyLower "dr4g0n123456").toList with
      | some w => (true, "contains dictionary word '" ++ w ++ "'")
      | none => (false, "") :=
  leet_stage_incremental_budget.1 "dr4g0n123456" ["dragon"] (by decide) (by decide)

/-! ## Evaluator message-shape lemmas -/

/-- The Dictionary Matcher returns no-hit or one of the two dictionary
messages built from some word. -/
theorem contains_dictionary_shape (pw : String) (ws : List String) :
    contains_dictionary pw ws = (false, "") ∨
    ∃ w, contains_dictionary pw ws = (true, "contains dictionary word '" ++ w ++ "'") ∨
      contains_dictionary pw ws = (true, "contains reversed dictionary word '" ++ w ++ "'") := by
  simp only [contains_dictionary]
  cases findVerbatim (pyLower pw) ws with
  | some w => exact Or.inr ⟨w, Or.inl rfl⟩
  | none =>
      cases findReversed (pyLower pw) ws with
      | some w => exact Or.inr ⟨w, Or.inr rfl⟩
      | none =>
          cases leetStage ws (pyLower pw).toList [] 0 with
          | some w => exact Or.inr ⟨w, Or.inl rfl⟩
          | none => exact Or.inl rfl

/-- Every Pattern Detector issue is the repetition message or a
weak-sequence message built from some chunk. -/
theorem obvious_patterns_shape (pw r : String) (h : r ∈ obvious_patterns pw) :
    r = "Password contains 4+ repeated characters" ∨
    ∃ chunk, r = "Password contains weak sequence '" ++ chunk ++ "'" := by
  unfold obvious_patterns at h
  rcases List.mem_append.mp h with h' | h'
  · left
    split at h'
    · exact List.mem_singleton.mp h'
    · simp at h'
  · right
    rcases List.mem_flatMap.mp h' with ⟨seq, _, hmem⟩
    rcases List.mem_filterMap.mp hmem with ⟨l, _, hsome⟩
    rcases Option.map_eq_some'.mp hsome with ⟨chunk, _, hg⟩
    exact ⟨String.mk chunk, hg.symm⟩

theorem dict_msg_ne (w : String) :
    "contains dictionary word '" ++ w ++ "'" ≠ "Too many similar characters" :=
  ne_of_data_head (by
    rw [String.data_append, String.data_append]
    exact (by decide : some 'c' ≠ some 'T'))

theorem rev_msg_ne (w : String) :
    "contains reversed dictionary word '" ++ w ++ "'" ≠ "Too many similar characters" :=
  ne_of_data_head (by
    rw [String.data_append, String.data_append]
    exact (by decide : some 'c' ≠ some 'T'))

theorem weak_msg_ne (chunk : String) :
    "Password contains weak sequence '" ++ chunk ++ "'" ≠ "Too many similar characters" :=
  ne_of_data_head (by
    rw [String.data_append, String.data_append]
    exact (by decide : some 'P' ≠ some 'T'))

/-- C6: the Strength Evaluator appends the diversity-failure reason iff
fewer than 3 of the four character classes occur in the password and the
password is shorter than 20 characters; in particular every password of
length at least 20 is exempt from the diversity rule. -/
theorem diversity_rule_iff (pw : String) (ws : List String) :
    "Too many similar characters" ∈ check_password_strength pw ws ↔
      categories pw < 3 ∧ pw.length < 20 := by
  unfold check_password_strength
  constructor
  · intro h
    rcases List.mem_append.mp h with h3 | h4
    · exfalso
      rcases List.mem_append.mp h3 with h5 | h6
      · rcases List.mem_append.mp h5 with hA | hB
        · split at hA
          · rw [List.mem_singleton] at hA
            exact absurd hA (by decide)
          · simp at hA
        · rcases contains_dictionary_shape pw ws with hcd | ⟨w, hcd | hcd⟩
          · rw [hcd] at hB
            simp at hB
          · rw [hcd] at hB
            simp only [if_true, List.mem_singleton] at hB
            exact dict_msg_ne w hB.symm
          · rw [hcd] at hB
            simp only [if_true, List.mem_singleton] at hB
            exact rev_msg_ne w hB.symm
      · rcases obvious_patterns_shape pw _ h6 with he | ⟨chunk, he⟩
        · exact absurd he (by decide)
        · exact weak_msg_ne chunk he.symm
    · split at h4
      · next hcond =>
          simp only [Bool.and_eq_true, decide_eq_true_eq] at hcond
          exact hcond
      · simp at h4
  · intro hc
    refine List.mem_append.mpr (Or.inr ?_)
    have hcond : (decide (categories pw < 3) && decide (pw.length < 20)) = true := by
      simp [hc.1, hc.2]
    rw [hcond]
    simp

/-- Every reason string the evaluator can produce. -/
def ReasonWF (r : String) : Prop :=
  r = tooShortMsg ∨
  (∃ w, r = "contains dictionary word '" ++ w ++ "'") ∨
  (∃ w, r = "contains reversed dictionary word '" ++ w ++ "'") ∨
  r = "Password contains 4+ repeated characters" ∨
  (∃ chunk, r = "Password contains weak sequence '" ++ chunk ++ "'") ∨
  r = "Too many similar characters"

/-- C7: the Strength Evaluator is a total pure function of the pair
(password, WordSet) — it is defined for every input as a Lean function
with no effects, so it never raises and performs no I/O — and every
entry of the returned reason sequence is a well-formed policy message. -/
theorem evaluator_reasons_wellformed (pw : String) (ws : List String) (r : String)
    (h : r ∈ check_password_strength pw ws) : ReasonWF r := by
  unfold check_password_strength at h
  rcases List.mem_append.mp h with h3 | h4
  · rcases List.mem_append.mp h3 with h5 | h6
    · rcases List.mem_append.mp h5 with hA | hB
      · split at hA
        · exact Or.inl (List.mem_singleton.mp hA)
        · simp at hA
      · rcases contains_dictionary_shape pw ws with hcd | ⟨w, hcd | hcd⟩
        · rw [hcd] at hB
          simp at hB
        · rw [hcd] at hB
          simp only [if_true, List.mem_singleton] at hB
          exact Or.inr (Or.inl ⟨w, hB⟩)
        · rw [hcd] at hB
          simp only [if_true, List.mem_singleton] at hB
          exact Or.inr (Or.inr (Or.inl ⟨w, hB⟩))
    · rcases obvious_patterns_shape pw r h6 with he | ⟨chunk, he⟩
      · exact Or.inr (Or.inr (Or.inr (Or.inl he)))
      · exact Or.inr (Or.inr (Or.inr (Or.inr (Or.inl ⟨chunk, he⟩))))
  · split at h4
    · exact Or.inr (Or.inr (Or.inr (Or.inr (Or.inr (List.mem_singleton.mp h4)))))
    · simp at h4

/-- C7 witness: the well-formedness theorem applied to the length
reason produced for the empty password with the empty WordSet. -/
theorem evaluator_reasons_wellformed_witness : ReasonWF "Password too short (min 12)" :=
  evaluator_reasons_wellformed "" [] "Password too short (min 12)" (by decide)

/-- C8: the evaluator is deterministic — two evaluations on the same
(password, WordSet) pair give the same reason sequence, so a password
accepted once (empty reasons) is accepted again on re-evaluation. -/
theorem evaluator_deterministic (pw : String) (ws : List String) (r1 r2 : List String)
    (h1 : r1 = check_password_strength pw ws) (h2 : r2 = check_password_strength pw ws) :
    r1 = r2 ∧ (r1 = [] → r2 = []) := by
  have h12 : r1 = r2 := by rw [h1, h2]
  exact ⟨h12, fun e => h12 ▸ e⟩

/-- C8 witness: two evaluations of an accepted password agree. -/
theorem evaluator_deterministic_witness :
    check_password_strength "Tr0ub4dor&3xyz" [] = check_password_strength "Tr0ub4dor&3xyz" [] ∧
    (check_password_strength "Tr0ub4dor&3xyz" [] = [] →
      check_password_strength "Tr0ub4dor&3xyz" [] = []) :=
  evaluator_deterministic "Tr0ub4dor&3xyz" [] _ _ rfl rfl

/-- C10: the minimum-word-length filter applies only to the verbatim
stage of the Dictionary Matcher — stage 1 behaves as if the WordSet
were pre-filtered to words of length at least `MIN_DICT_WORD_LEN` —
while the reversed and leet-normalized stages test every word: a
3-letter word invisible to the verbatim stage is still reported through
the leet stage ("zc4tq" against "cat", one substitution) and through
the reversed stage ("xxcatxx" against "tac"). -/
theorem verbatim_filter_only :
    (∀ pw ws, findVerbatim (pyLower pw) ws =
        findVerbatim (pyLower pw)
          (ws.filter (fun w => decide (MIN_DICT_WORD_LEN ≤ w.length)))) ∧
    ("cat".length < MIN_DICT_WORD_LEN ∧
      findVerbatim (pyLower "zc4tq") ["cat"] = none ∧
      findReversed (pyLower "zc4tq") ["cat"] = none ∧
      contains_dictionary "zc4tq" ["cat"] = (true, "contains dictionary word 'cat'")) ∧
    contains_dictionary "xxcatxx" ["tac"] = (true, "contains reversed dictionary word 'tac'") := by
  refine ⟨?_, by decide, by decide⟩
  intro pw ws
  induction ws with
  | nil => rfl
  | cons w rest ih =>
      by_cases hw : MIN_DICT_WORD_LEN ≤ w.length
      · rw [List.filter_cons_of_pos (by simpa using hw)]
        unfold findVerbatim
        cases hpy : pyIn w (pyLower pw) with
        | true =>
            rw [List.find?_cons_of_pos _ (by simp [hw, hpy]),
              List.find?_cons_of_pos _ (by simp [hw, hpy])]
        | false =>
            rw [List.find?_cons_of_neg _ (by simp [hw, hpy]),
              List.find?_cons_of_neg _ (by simp [hw, hpy])]
            exact ih
      · rw [List.filter_cons_of_neg (by simpa using hw)]
        unfold findVerbatim
        rw [List.find?_cons_of_neg _ (by simp [hw])]
        exact ih
